import Mathlib

/-!
Verification of the bounding-volume construction algorithms of the
Epsilon-Intersection library (`src/3dtypes.cpp`).

The C++ code operates on single-precision floats; the embedding gives the
exact-real semantics of the same arithmetic over `ℚ`.  Two systematic
conventions are used:

* A sphere is represented by its center together with its *squared* radius
  (`radiusSq`).  The source stores `radius` (obtained by `sqrt`), but every
  comparison in the source is of the form `lensq(p - center) > radius*radius`,
  so tracking the square is an exact, square-root-free account of the same
  tests.

* Planes produced by `Plane(v0,v1,v2)` are kept with their *unnormalized*
  normal (the raw cross product) and the correspondingly scaled offset.
  All tests the source performs with such planes are either sign tests
  (invariant under the positive scaling `1/|n|`) or threshold tests, which
  are rendered exactly by multiplying the threshold by the normal's length
  (comparing squares).  A zero cross product makes the float code produce
  NaN, and every subsequent NaN comparison is false; the embedding encodes
  those outcomes explicitly.

Definitions are translated from `src/3dtypes.cpp`; helpers whose bodies live
outside `src/` (two-point sphere, `Plane`/`DOP` constructors,
`distance(point, Segment)`) are modelled from the spec and marked as such.
All recursion is structural (explicit counters mirroring the loop bounds) so
that every definition evaluates inside the kernel.
-/

namespace EpsilonIntersect

/-- A 3-component vector, exact-rational model of the source's `Vec3`. -/
structure Vec3 where
  x : ℚ
  y : ℚ
  z : ℚ
deriving DecidableEq, Repr

namespace Vec3

def add (a b : Vec3) : Vec3 := ⟨a.x + b.x, a.y + b.y, a.z + b.z⟩

def sub (a b : Vec3) : Vec3 := ⟨a.x - b.x, a.y - b.y, a.z - b.z⟩

def smul (s : ℚ) (a : Vec3) : Vec3 := ⟨s * a.x, s * a.y, s * a.z⟩

/-- Dot product. -/
def dot (a b : Vec3) : ℚ := a.x * b.x + a.y * b.y + a.z * b.z

/-- Squared length, the source's `lensq`. -/
def lensq (a : Vec3) : ℚ := dot a a

/-- Cross product. -/
def cross (a b : Vec3) : Vec3 :=
  ⟨a.y * b.z - a.z * b.y, a.z * b.x - a.x * b.z, a.x * b.y - a.y * b.x⟩

end Vec3

/-- A sphere, represented by center and squared radius (see file comment). -/
structure Sphere where
  center : Vec3
  radiusSq : ℚ
deriving DecidableEq, Repr

/-- `Sphere(center, radius)` at radius `0`: the degenerate one-point sphere
used by the `_boundarySet == 1` case of `minimalBoundingSphere`. -/
def sphere1 (p : Vec3) : Sphere := ⟨p, 0⟩

/-- Modelled from the spec: the two-point constructor
`Sphere(const Vec3&, const Vec3&)` is declared in `include/ei/3dtypes.hpp`
but its body is not under `src/`; spec §4.1 gives "midpoint center, radius =
half the distance". -/
def sphere2 (p0 p1 : Vec3) : Sphere :=
  ⟨Vec3.smul (1/2) (Vec3.add p0 p1), Vec3.lensq (Vec3.sub p1 p0) / 4⟩

/-- `Sphere(const Vec3& _p0, const Vec3& _p1, const Vec3& _p2)`,
`src/3dtypes.cpp` lines 7-30.  The three two-point reductions and their
branch conditions are verbatim; in the final branch the source sets
`radius = sqrt(asq*bsq*csq/(2*area2Sq))`, recorded here as the squared
radius `asq*bsq*csq/(2*area2Sq)`. -/
def sphere3 (p0 p1 p2 : Vec3) : Sphere :=
  let c := Vec3.sub p0 p1
  let csq := Vec3.lensq c
  let a := Vec3.sub p1 p2
  let asq := Vec3.lensq a
  let b := Vec3.sub p2 p0
  let bsq := Vec3.lensq b
  if csq + bsq ≤ asq then sphere2 p1 p2
  else if asq + bsq ≤ csq then sphere2 p1 p0
  else if asq + csq ≤ bsq then sphere2 p2 p0
  else
    let area2Sq := 2 * Vec3.lensq (Vec3.cross a c)
    let center :=
      Vec3.add (Vec3.add
        (Vec3.smul (-(Vec3.dot c b) * asq / area2Sq) p0)
        (Vec3.smul (-(Vec3.dot c a) * bsq / area2Sq) p1))
        (Vec3.smul (-(Vec3.dot b a) * csq / area2Sq) p2)
    ⟨center, asq * bsq * csq / (2 * area2Sq)⟩

/-- Determinant of the 3×3 matrix with rows `r0, r1, r2` (the source's
`determinant(Mat3x3(...))`). -/
def det3 (r0 r1 r2 : Vec3) : ℚ := Vec3.dot r0 (Vec3.cross r1 r2)

/-- `Sphere(const Vec3& _p0, ..., const Vec3& _p3)`, `src/3dtypes.cpp`
lines 33-72, translated exactly as written: the first containment test is
`lensq(_p3 - center) > rsq` (against the member `_p3` of the first triple,
not the excluded `_p0`), `rsq` is computed once from the first triple's
sphere and never refreshed, and the fourth fallback rebuilds the triple
`(_p1,_p2,_p3)` again.  In the determinant branch the source sets
`radius = len(o)`, recorded as squared radius `lensq o`; a zero determinant
(division by zero, `ℚ`-total as `0`) matches the source's documented
undefined coplanar case. -/
def sphere4 (p0 p1 p2 p3 : Vec3) : Sphere :=
  let s := sphere3 p1 p2 p3
  let rsq := s.radiusSq
  if Vec3.lensq (Vec3.sub p3 s.center) > rsq then
    let s := sphere3 p0 p1 p3
    if Vec3.lensq (Vec3.sub p2 s.center) > rsq then
      let s := sphere3 p0 p2 p3
      if Vec3.lensq (Vec3.sub p1 s.center) > rsq then
        let s := sphere3 p1 p2 p3
        if Vec3.lensq (Vec3.sub p0 s.center) > rsq then
          let a := Vec3.sub p1 p0
          let b := Vec3.sub p2 p0
          let c := Vec3.sub p3 p0
          let denominator := (1/2) / det3 p1 p2 p3
          let o := Vec3.smul denominator
            (Vec3.add (Vec3.add
              (Vec3.smul (Vec3.lensq c) (Vec3.cross a b))
              (Vec3.smul (Vec3.lensq b) (Vec3.cross c a)))
              (Vec3.smul (Vec3.lensq a) (Vec3.cross b c)))
          ⟨Vec3.add p0 o, Vec3.lensq o⟩
        else s
      else s
    else s
  else s

/-! ### The minimal-enclosing-sphere engine

`struct SingleLinkedPointList { Vec3 p; int next; }` and
`minimalBoundingSphere`, `src/3dtypes.cpp` lines 75-132.  The node array is
a `List Node`; indices are `Int` with `-1` the end marker, exactly as the
source's `uint32` carrying `-1`.  Every node access of the source is an
unchecked `_points[i]`; the only guard is the scan loop's
`eiAssert(it != 0xffffffff, "Iteration should not have stopped.")` right
after the read (line 117).  An out-of-range access is therefore an
aborted/undefined execution, and the embedding propagates it as a failure
(`EngineResult.abort`) — it is reachable from the public entry on inputs
whose list the stale-`last` splice corrupts (see
`sphereFromBuffer_abort_reachable`).  The recursion of
`minimalBoundingSphere` is driven by an explicit `fuel` counter for the
depth of boundary-set growth; the scan loop is structural on the number of
remaining iterations, mirroring `for(i = _boundarySet; i < _n; ++i)`. -/

/-- One node of the source's `SingleLinkedPointList`. -/
structure Node where
  p : Vec3
  next : Int
deriving DecidableEq, Repr

/-- Outcome of running the engine: a value, an aborted execution (a failed
`eiAssert` or an out-of-range node access, undefined behaviour in the
source), or exhaustion of the recursion-depth fuel (proved unreachable
below). -/
inductive EngineResult (α : Type) where
  | ok (value : α)
  | abort
  | fuelOut
deriving DecidableEq, Repr

/-- Read the node array; an out-of-range index is an aborted/undefined
execution of the source, rendered `none`. -/
def getNodeE (nodes : List Node) (i : Int) : Option Node :=
  if h : 0 ≤ i ∧ i.toNat < nodes.length then some (nodes.get ⟨i.toNat, h.2⟩)
  else none

/-- Write field `next` of node `i`; a write through an out-of-range index
is likewise an aborted/undefined execution. -/
def setNextE (nodes : List Node) (i : Int) (nx : Int) : Option (List Node) :=
  match getNodeE nodes i with
  | none => none
  | some nd => some (nodes.set i.toNat ⟨nd.p, nx⟩)

/-- The pointer-advance prologue
`for(uint32 i = 0; i < _boundarySet; ++i) {last = it; it = _points[it].next;}`
returning the final `(last, it)`; each iteration reads `_points[it]`. -/
def advanceE (nodes : List Node) : Int → Int → Nat → Option (Int × Int)
  | last, it, 0 => some (last, it)
  | _, it, k + 1 =>
    match getNodeE nodes it with
    | none => none
    | some nd => advanceE nodes it nd.next k

/-- The initial sphere of `minimalBoundingSphere`'s `switch(_boundarySet)`:
cases 1-3 (case 4 returns directly and is handled by the caller), reading
the linked points exactly as lines 89-100 do.  Support sizes outside 1-4
leave `mbs` uninitialized in C++ and are unreachable; the embedding
returns the junk sphere there (no abort: the source does not trap). -/
def switchSphereE (nodes : List Node) (first : Int) : Nat → Option Sphere
  | 1 => (getNodeE nodes first).map fun v0 => sphere1 v0.p
  | 2 =>
    match getNodeE nodes first with
    | none => none
    | some v0 => (getNodeE nodes v0.next).map fun v1 => sphere2 v0.p v1.p
  | 3 =>
    match getNodeE nodes first with
    | none => none
    | some v0 =>
      match getNodeE nodes v0.next with
      | none => none
      | some v1 => (getNodeE nodes v1.next).map fun v2 => sphere3 v0.p v1.p v2.p
  | _ => some ⟨⟨0, 0, 0⟩, 0⟩

/-- The `switch` case 4 of `minimalBoundingSphere` (lines 102-107): read
four linked points and return their four-point sphere directly (no scan,
no recursion). -/
def case4SphereE (nodes : List Node) (first : Int) : Option Sphere :=
  match getNodeE nodes first with
  | none => none
  | some v0 =>
    match getNodeE nodes v0.next with
    | none => none
    | some v1 =>
      match getNodeE nodes v1.next with
      | none => none
      | some v2 => (getNodeE nodes v2.next).map fun v3 => sphere4 v0.p v1.p v2.p v3.p

/-- The scan loop of `minimalBoundingSphere` (lines 113-129): `count` is the
number of remaining iterations (`_n - i`), `i` the current loop index, and
`rebuild` the recursive call made on a violation (it receives the spliced
node array, the new front `it`, the current index `i` as the new `_n`, and
`support + 1` — the arguments of
`minimalBoundingSphere(_points, it, i, _boundarySet+1)`, exactly as
written).  Each iteration first reads `_points[it].next` (line 116, with
the `eiAssert` on line 117): an invalid `it` aborts.  The splice uses the
source's `last` pointer as is, stale or not; a write through an invalid
`last` is likewise an abort.  `.fuelOut` signals recursion-fuel exhaustion
only. -/
def scanGoE
    (rebuild : List Node → Int → Nat → Nat → EngineResult (Sphere × List Node))
    (nodes : List Node) (first last it : Int)
    (i : Nat) (support : Nat) (mbs : Sphere) : Nat → EngineResult (Sphere × List Node)
  | 0 => .ok (mbs, nodes)
  | count + 1 =>
    match getNodeE nodes it with
    | none => .abort
    | some nd =>
      if Vec3.lensq (Vec3.sub mbs.center nd.p) > mbs.radiusSq then
        match setNextE nodes last nd.next with
        | none => .abort
        | some nodes1 =>
          match setNextE nodes1 it first with
          | none => .abort
          | some nodes2 =>
            match rebuild nodes2 it i (support + 1) with
            | .ok sn => scanGoE rebuild sn.2 it it nd.next (i + 1) support sn.1 count
            | .abort => .abort
            | .fuelOut => .fuelOut
      else scanGoE rebuild nodes first it nd.next (i + 1) support mbs count

/-- `minimalBoundingSphere(_points, _first, _n, _boundarySet)`,
`src/3dtypes.cpp` lines 81-132.  `fuel` bounds the depth of the recursion
(consumed on entry); `.fuelOut` means the fuel ran out.  Support size 0
trips the source's `eiAssertWeak` and aborts; case 4 returns the
four-point sphere directly with no scan and no recursion. -/
def mbsFuelE : Nat → List Node → Int → Nat → Nat → EngineResult (Sphere × List Node)
  | 0, _, _, _, _ => .fuelOut
  | fuel + 1, nodes, first, n, support =>
    if support = 0 then .abort
    else if support = 4 then
      match case4SphereE nodes first with
      | none => .abort
      | some s => .ok (s, nodes)
    else
      match switchSphereE nodes first support with
      | none => .abort
      | some mbs =>
        match advanceE nodes first first support with
        | none => .abort
        | some li =>
          scanGoE (mbsFuelE fuel) nodes first li.1 li.2 support support mbs
            (n - support)

/-- `Sphere::Sphere(const Vec3* _points, uint32 _numPoints)`,
`src/3dtypes.cpp` lines 134-146: assert `n > 0` (rendered `.abort`), copy
the points into a fresh node list (`list[i].p = _points[i];
list[i].next = i+1`, last `next = -1`), and run
`minimalBoundingSphere(list, 0, n, 1)`.  Recursion depth of the engine is
at most 4 (boundary sizes 1,2,3,4), so fuel 4 is the exact bound;
`mbsFuelE_ne_fuelOut` below proves it never runs out. -/
def initNodes (pts : List Vec3) : List Node :=
  (List.range pts.length).map fun i =>
    ⟨pts.getD i ⟨0, 0, 0⟩, if i + 1 < pts.length then (i : Int) + 1 else -1⟩

/-- The outcome of `Sphere(const Vec3*, uint32)` on a point buffer: the
constructed sphere, or an aborted execution (assertion failure /
out-of-bounds access). -/
def sphereFromBuffer (pts : List Vec3) : EngineResult Sphere :=
  if pts.length = 0 then .abort
  else
    match mbsFuelE 4 (initNodes pts) 0 pts.length 1 with
    | .ok sn => .ok sn.1
    | .abort => .abort
    | .fuelOut => .fuelOut

/-- The caller's buffer after `Sphere(const Vec3*, uint32)` returns: the
parameter is `const Vec3*` and the constructor copies each point into the
freshly allocated node array, never writing through the buffer, so the
buffer component of the call's state is returned unchanged. -/
def sphereCtorRun (pts : List Vec3) : EngineResult Sphere × List Vec3 :=
  (sphereFromBuffer pts, pts)
/-! ### The extreme point-set reducer `convexSet`

`uint32 convexSet(Vec3* _points, uint32 _numPoints, float _threshold)`,
`src/3dtypes.cpp` lines 320-397.  The logical point buffer is the list; a
removal `_points[k] = _points[--_numPoints]` is `swapRemove`.  Loops are
structural on explicit remaining-iteration counters (`rem`), which equal
`_numPoints - index` at every call from the public entry. -/

/-- `_points[k] = _points[--_numPoints]`: overwrite slot `k` with the last
element and shrink the logical length by one. -/
def swapRemove (arr : List Vec3) (k : Nat) : List Vec3 :=
  (arr.set k (arr.getD (arr.length - 1) ⟨0, 0, 0⟩)).dropLast

/-- Inner loop of the deduplication phase (lines 327-332): for fixed `i`,
scan `j` upward; on `lensq(_points[j] - _points[i]) <= tSq` remove `j` and
retest the same slot (`j--` then `j++`).  `rem` is the remaining iteration
count `_numPoints - j`; both branches shrink it by exactly one since a
removal shortens the list by one with `j` unchanged. -/
def dedupInner (tSq : ℚ) : List Vec3 → Nat → Nat → Nat → List Vec3
  | arr, _, _, 0 => arr
  | arr, i, j, rem + 1 =>
    if Vec3.lensq (Vec3.sub (arr.getD j ⟨0, 0, 0⟩) (arr.getD i ⟨0, 0, 0⟩)) ≤ tSq then
      dedupInner tSq (swapRemove arr j) i j rem
    else
      dedupInner tSq arr i (j + 1) rem

/-- Outer loop of the deduplication phase (line 325): `rem` only needs to
dominate the remaining iterations (`i` rises by one per step while the
length never grows, so the initial length suffices). -/
def dedupOuter (tSq : ℚ) : List Vec3 → Nat → Nat → List Vec3
  | arr, _, 0 => arr
  | arr, i, rem + 1 =>
    if i < arr.length then
      dedupOuter tSq (dedupInner tSq arr i (i + 1) (arr.length - (i + 1))) (i + 1) rem
    else arr

/-- Phase 1 of `convexSet`: brute-force duplicate removal. -/
def dedup (tSq : ℚ) (arr : List Vec3) : List Vec3 := dedupOuter tSq arr 0 arr.length

/-- Modelled from the spec: `distance(const Vec3&, const Segment&)` is
declared in `ei/3dintersection.hpp`, which is not under `src/`.  Standard
point-to-segment distance, here as the squared distance (the projection
parameter clamped to `[0,1]`); the source's test
`distance(p, seg) <= _threshold` is rendered exactly as
`0 ≤ _threshold ∧ segDistSq ≤ _threshold²`. -/
def segDistSq (p a b : Vec3) : ℚ :=
  let ab := Vec3.sub b a
  let L := Vec3.lensq ab
  let lam := max 0 (min 1 (if L = 0 then 0 else Vec3.dot (Vec3.sub p a) ab / L))
  Vec3.lensq (Vec3.sub p (Vec3.add a (Vec3.smul lam ab)))

/-- A plane in scaled form: `n` is the raw (unnormalized) cross product and
`d` the correspondingly scaled offset; see the file header. -/
structure PlaneS where
  n : Vec3
  d : ℚ
deriving DecidableEq, Repr

/-- Modelled from the spec/header: `Plane(v0,v1,v2)` (body not under
`src/`) produces the normalized right-hand-side triangle normal `n` with
offset `d` such that `dot(n,x) + d = 0` on the plane.  Scaled form: the
raw cross product and matching offset (all uses below are sign tests or
squared-threshold tests, which this renders exactly). -/
def planeS (v0 v1 v2 : Vec3) : PlaneS :=
  let n := Vec3.cross (Vec3.sub v1 v0) (Vec3.sub v2 v0)
  ⟨n, -(Vec3.dot n v0)⟩

/-- `dot(q, p.n) + p.d` (scaled by the normal's length). -/
def planeVal (p : PlaneS) (q : Vec3) : ℚ := Vec3.dot q p.n + p.d

/-- The separating-plane search for point `i` (lines 340-390): the inner
`j` loop with its running state — `ne` extrema found so far, the extrema
`e0 e1 e2`, the current plane `pl` and `i`'s (scaled) signed distance `d`.
Returns the final value of `maySeparate`.  The two `<= _threshold` tests on
float-normalized quantities are rendered in exact scaled form (see the file
header); a degenerate plane (zero cross product) makes the float code
produce NaN whose comparisons are all false, rendered by the
`lensq n ≠ 0` conjunct (the sign tests need no guard: with a zero normal
both scaled products are zero and the strict comparisons are false, as
with NaN). -/
def phase2May (t tSq : ℚ) (arr : List Vec3) (i : Nat) :
    Nat → Nat → Vec3 → Vec3 → Vec3 → PlaneS → ℚ → Nat → Bool
  | _, _, _, _, _, _, _, 0 => true
  | j, ne, e0, e1, e2, pl, d, rem + 1 =>
    if j = i then phase2May t tSq arr i (j + 1) ne e0 e1 e2 pl d rem
    else
      let pi := arr.getD i ⟨0, 0, 0⟩
      let pj := arr.getD j ⟨0, 0, 0⟩
      match ne with
      | 0 => phase2May t tSq arr i (j + 1) 1 pj e1 e2 pl d rem
      | 1 =>
        if 0 ≤ t ∧ segDistSq pi e0 pj ≤ tSq then false
        else phase2May t tSq arr i (j + 1) 2 e0 pj e2 pl d rem
      | 2 =>
        let pl' := planeS e0 e1 pj
        let d' := planeVal pl' pi
        if 0 ≤ t ∧ Vec3.lensq pl'.n ≠ 0 ∧ d' * d' ≤ tSq * Vec3.lensq pl'.n then false
        else phase2May t tSq arr i (j + 1) 3 e0 e1 pj pl' d' rem
      | _ =>
        let dj := planeVal pl pj
        if dj * d > 0 then
          let pl₀ := planeS pj e1 e2
          let d₀ := planeVal pl₀ pi
          if d₀ * planeVal pl₀ e0 < 0 then
            phase2May t tSq arr i (j + 1) ne pj e1 e2 pl₀ d₀ rem
          else
            let pl₁ := planeS e0 pj e2
            let d₁ := planeVal pl₁ pi
            if d₁ * planeVal pl₁ e1 < 0 then
              phase2May t tSq arr i (j + 1) ne e0 pj e2 pl₁ d₁ rem
            else
              let pl₂ := planeS e0 e1 pj
              let d₂ := planeVal pl₂ pi
              if d₂ * planeVal pl₂ e2 < 0 then
                phase2May t tSq arr i (j + 1) ne e0 e1 pj pl₂ d₂ rem
              else false
        else phase2May t tSq arr i (j + 1) ne e0 e1 e2 pl d rem

/-- The outer loop of phase 2 (lines 337-395): for each `i`, if no
separating plane was found, remove `i` by swap-with-last and retest the
same slot; `rem` is exactly `_numPoints - i` in both branches. -/
def phase2Outer (t tSq : ℚ) : List Vec3 → Nat → Nat → List Vec3
  | arr, _, 0 => arr
  | arr, i, rem + 1 =>
    if i < arr.length then
      if phase2May t tSq arr i 0 0 ⟨0, 0, 0⟩ ⟨0, 0, 0⟩ ⟨0, 0, 0⟩ ⟨⟨0, 0, 0⟩, 0⟩ 0
          arr.length then
        phase2Outer t tSq arr (i + 1) rem
      else phase2Outer t tSq (swapRemove arr i) i rem
    else arr

/-- `convexSet(_points, _numPoints, _threshold)`: squared threshold, the
deduplication phase, then the separating-plane phase.  The result is the
surviving prefix of the buffer; the source's return value is its length. -/
def convexSet (arr : List Vec3) (t : ℚ) : List Vec3 :=
  let tSq := t * t
  let arr1 := dedup tSq arr
  phase2Outer t tSq arr1 0 arr1.length

/-! ### The oriented-box fitter

`OBox::OBox(const Vec3* _points, uint32 _numPoints)`, `src/3dtypes.cpp`
lines 244-282, together with the given-orientation fit of lines 221-241.
A candidate orientation is kept as its three raw (unnormalized, mutually
orthogonal) axis vectors; the true rotation rows are these divided by
their lengths.  Every observable the claims need — the squared side
lengths and the volume comparison of the search — is an exact rational
function of the raw axes, so no square root is required (see the file
header). -/

/-- The index triples `(i,j,k)`, `i < j < k < n`, in the source's loop
order (`i` outermost ascending, then `j`, then `k`). -/
def tripleList (n : Nat) : List (Nat × Nat × Nat) :=
  (List.range n).flatMap fun i =>
    (List.range n).flatMap fun j =>
      (List.range n).filterMap fun k =>
        if i < j ∧ j < k then some (i, j, k) else none

/-- Squared side length of the axis-aligned fit along one (raw) axis:
`(max - min over dot(p, axis))² / lensq axis` — the square of
`(max - min)` of the points' coordinates along the normalized axis, as in
`OBox(const Quaternion&, const Vec3*, uint32)` (min/max per local axis,
`sides = max - min`). -/
def extentSq (pts : List Vec3) (axis : Vec3) : ℚ :=
  match pts with
  | [] => 0
  | p :: rest =>
    let d0 := Vec3.dot p axis
    let mm := rest.foldl
      (fun (mm : ℚ × ℚ) q => (min mm.1 (Vec3.dot q axis), max mm.2 (Vec3.dot q axis)))
      (d0, d0)
    (mm.2 - mm.1) * (mm.2 - mm.1) / Vec3.lensq axis

/-- The candidate frame of the triple `(i,j,k)`, lines 264-273:
`xAxis = normalize(p[i] - p[j])`, `yAxis = cross(xAxis, p[i] - p[k])` with
the colinear fallback when `len(yAxis) < 1e-6f`, and
`zAxis = cross(xAxis, yAxis)` — in raw scaled form (`cr` is
`|xraw| * yAxis`, so the test is `lensq cr * 10^12 < lensq xraw`).
Coincident points (`p[i] = p[j]`) make the float code normalize a zero
vector; the resulting NaN sides compare false against every current best,
so such a candidate can never win: rendered as `none`.
The fallback `Quaternion(xAxis, Vec3(1,0,0))` is modelled from the spec
("falling back to an arbitrary perpendicular axis if the triple is
colinear"): a canonical perpendicular completes the frame. -/
def tripleFrame (pts : List Vec3) (i j k : Nat) : Option (Vec3 × Vec3 × Vec3) :=
  let pI := pts.getD i ⟨0, 0, 0⟩
  let xraw := Vec3.sub pI (pts.getD j ⟨0, 0, 0⟩)
  if Vec3.lensq xraw = 0 then none
  else
    let cr := Vec3.cross xraw (Vec3.sub pI (pts.getD k ⟨0, 0, 0⟩))
    if Vec3.lensq cr * 1000000000000 < Vec3.lensq xraw then
      let c1 := Vec3.cross xraw ⟨1, 0, 0⟩
      let yraw := if Vec3.lensq c1 = 0 then Vec3.cross xraw ⟨0, 1, 0⟩ else c1
      some (xraw, yraw, Vec3.cross xraw yraw)
    else some (xraw, cr, Vec3.cross xraw cr)

/-- The brute-force search of lines 256-280 over all triples, tracking the
best fit's squared sides; `none` is the initial `sides = Vec3(1e30f)`
sentinel, whose squared volume is `10^180`.  The comparison
`prod(currentFit.sides) < prod(sides)` is rendered on squared volumes
(both volumes are non-negative). -/
def oboxBestSidesSq (pts : List Vec3) : Option (ℚ × ℚ × ℚ) :=
  (tripleList pts.length).foldl
    (fun best t =>
      match tripleFrame pts t.1 t.2.1 t.2.2 with
      | none => best
      | some (rx, ry, rz) =>
        let cand := (extentSq pts rx, extentSq pts ry, extentSq pts rz)
        let bestProdSq : ℚ := match best with
          | none => 1000000000000000000000000000000000000000000000000000000000000000000000000000000000000000000000000000000000000000000000000000000000000000000000000000000000000000000000000000000000000
          | some b => b.1 * b.2.1 * b.2.2
        if cand.1 * cand.2.1 * cand.2.2 < bestProdSq then some cand else best)
    none

/-- The squared `sides` of the box produced by
`OBox(const Vec3* _points, uint32 _numPoints)`: `n == 1` gives the
degenerate zero box, `n == 2` the segment box `(len(connection), 0, 0)`,
otherwise the brute-force search — and when no candidate beats the
`Vec3(1e30f)` sentinel, the constructor returns with `sides` still at the
sentinel (squared: `10^60` per axis) and `center`/`orientation` never
assigned. -/
def oboxSidesSq (pts : List Vec3) : ℚ × ℚ × ℚ :=
  if pts.length = 1 then (0, 0, 0)
  else if pts.length = 2 then
    (Vec3.lensq (Vec3.sub (pts.getD 1 ⟨0, 0, 0⟩) (pts.getD 0 ⟨0, 0, 0⟩)), 0, 0)
  else
    match oboxBestSidesSq pts with
    | none => (1000000000000000000000000000000000000000000000000000000000000, 1000000000000000000000000000000000000000000000000000000000000, 1000000000000000000000000000000000000000000000000000000000000)
    | some s => s

/-! ### The fast frustum builder

`FastFrustum::FastFrustum(const Frustum&)`, `src/3dtypes.cpp` lines
285-317.  The four side planes are produced by the source as
`Plane(normalize(cross(...)), support)`; they are kept in scaled
(unnormalized) form, which renders the claims' observables — membership
`dot(n,v) + d = 0` and the sign of the distance to the centroid —
exactly. -/

/-- The source's `Frustum` (header): apex, direction, up and the six
distances with invariants `l < r`, `b < t`, `0 <= n < f`. -/
structure Frustum where
  apex : Vec3
  direction : Vec3
  up : Vec3
  l : ℚ
  r : ℚ
  b : ℚ
  t : ℚ
  n : ℚ
  f : ℚ
deriving DecidableEq, Repr

/-- A double-oriented plane (header `DOP`): shared normal and the two
offsets. -/
structure DOPS where
  n : Vec3
  d0 : ℚ
  d1 : ℚ
deriving DecidableEq, Repr

/-- Modelled from the spec/header: `DOP(normal, support0, support1)` (body
not under `src/`) sets `d0 = -dot(normal, support0)` and
`d1 = -dot(normal, support1)` per the header's parameter documentation. -/
def dopS (nrm s0 s1 : Vec3) : DOPS := ⟨nrm, -(Vec3.dot nrm s0), -(Vec3.dot nrm s1)⟩

/-- Modelled from the spec/header: `Plane(normal, support)` (body not under
`src/`) sets `d = -dot(normal, support)`; the caller passes an already
normalized normal, kept here in the scaled form of the raw cross product. -/
def planeSupport (nrm s : Vec3) : PlaneS := ⟨nrm, -(Vec3.dot nrm s)⟩

/-- The derived immutable frustum representation: near/far double plane,
the four side planes (scaled), and the 8 vertices in the source's order
nlb, nlt, nrb, nrt, flb, flt, frb, frt. -/
structure FastFrustum where
  nf : DOPS
  l : PlaneS
  r : PlaneS
  b : PlaneS
  t : PlaneS
  vertices : List Vec3
deriving DecidableEq, Repr

/-- `FastFrustum::FastFrustum(const Frustum&)`, lines 285-317, verbatim:
vertices from near/far centers and the scaled left/right/bottom/top
offsets, `fton = n/f`; the near/far DOP from `direction` and the two
centers; the side planes from the up/cross-axis vectors and the far
vertices `v[4]`, `v[7]`. -/
def fastFrustum (fr : Frustum) : FastFrustum :=
  let far := Vec3.add (Vec3.smul fr.f fr.direction) fr.apex
  let near := Vec3.add (Vec3.smul fr.n fr.direction) fr.apex
  let xAxis := Vec3.cross fr.up fr.direction
  let bottom := Vec3.smul fr.b fr.up
  let top := Vec3.smul fr.t fr.up
  let left := Vec3.smul fr.l xAxis
  let right := Vec3.smul fr.r xAxis
  let fton := fr.n / fr.f
  let v0 := Vec3.add near (Vec3.smul fton (Vec3.add left bottom))
  let v1 := Vec3.add near (Vec3.smul fton (Vec3.add left top))
  let v2 := Vec3.add near (Vec3.smul fton (Vec3.add right bottom))
  let v3 := Vec3.add near (Vec3.smul fton (Vec3.add right top))
  let v4 := Vec3.add far (Vec3.add left bottom)
  let v5 := Vec3.add far (Vec3.add left top)
  let v6 := Vec3.add far (Vec3.add right bottom)
  let v7 := Vec3.add far (Vec3.add right top)
  { nf := dopS fr.direction near far
    l := planeSupport (Vec3.cross fr.up (Vec3.sub v4 fr.apex)) v4
    r := planeSupport (Vec3.cross (Vec3.sub v7 fr.apex) fr.up) v7
    b := planeSupport (Vec3.cross (Vec3.sub v4 fr.apex) xAxis) v4
    t := planeSupport (Vec3.cross xAxis (Vec3.sub v7 fr.apex)) v7
    vertices := [v0, v1, v2, v3, v4, v5, v6, v7] }

/-! ### Concrete instances used by the claims -/

/-- The three-point buffer on which the MES engine loses a point: at the
second violation the source's `last` pointer still names the node spliced
to the front by the first violation, so the splice unlinks the wrong node
and the first input point drops out of the list (and the rebuild is called
with `_n = i`, excluding it as well). -/
def c1Points : List Vec3 := [⟨-3, -4, 2⟩, ⟨0, 3, 0⟩, ⟨1, 3, 1⟩]

/-- The giant tetrahedron (edge scale `10^31`) on which no oriented-box
candidate's volume beats the `1e30` sentinel volume. -/
def c4Points : List Vec3 :=
  [⟨0, 0, 0⟩, ⟨10000000000000000000000000000000, 0, 0⟩, ⟨0, 10000000000000000000000000000000, 0⟩, ⟨0, 0, 10000000000000000000000000000000⟩]

/-- The frustum of the spec's FastFrustum consistency property:
`apex=(0,0,0)`, `direction=(0,0,1)`, `up=(0,1,0)`,
`l=-1, r=1, b=-1, t=1, n=1, f=2`. -/
def c5Frustum : Frustum := ⟨⟨0, 0, 0⟩, ⟨0, 0, 1⟩, ⟨0, 1, 0⟩, -1, 1, -1, 1, 1, 2⟩

/-- The centroid of a vertex list (here always 8 vertices). -/
def centroid (vs : List Vec3) : Vec3 :=
  Vec3.smul (1 / 8) (vs.foldl Vec3.add ⟨0, 0, 0⟩)

/-- The point buffer of the reducer-idempotence counterexample: the first
run keeps 5 points, rerunning on its own output keeps only 4 (the
separating-plane search is order-dependent, and the first run reorders the
survivors).  The six points are in general position for every decision the
two runs take: no sign test (`dj*d > 0`, `d*dj < 0`) evaluates a zero
product on a nondegenerate plane, no colinearity or coplanarity quantity
equals the threshold, and every point-segment distance is nonzero under
both the segment and the line reading — so every float comparison of the
source, taken after its `normalize`, has the same outcome as the exact
model. -/
def c6Points : List Vec3 :=
  [⟨-8, 7, -2⟩, ⟨1, -6, 3⟩, ⟨-2, 1, 2⟩, ⟨2, 6, -1⟩, ⟨1, 2, 1⟩, ⟨1, 4, 8⟩]

/-! ### Structural lemmas about the reducer

Swap-with-last removals only ever shrink the logical buffer and only ever
move existing elements, so the surviving prefix is a sub-collection of the
input; these lemmas track that through both phases. -/

theorem length_swapRemove (arr : List Vec3) (k : Nat) :
    (swapRemove arr k).length = arr.length - 1 := by
  simp [swapRemove]

theorem mem_of_mem_swapRemove {arr : List Vec3} {k : Nat} {q : Vec3}
    (h : q ∈ swapRemove arr k) : q ∈ arr := by
  rcases arr with - | ⟨a, rest⟩
  · simp [swapRemove] at h
  · have h1 := List.dropLast_subset _ h
    rcases List.mem_or_eq_of_mem_set h1 with h2 | h2
    · exact h2
    · subst h2
      have hlt : (a :: rest).length - 1 < (a :: rest).length := by
        simp
      rw [List.getD_eq_getElem _ _ hlt]
      exact List.getElem_mem hlt

theorem dedupInner_length_le (tSq : ℚ) :
    ∀ (rem : Nat) (arr : List Vec3) (i j : Nat),
      (dedupInner tSq arr i j rem).length ≤ arr.length := by
  intro rem
  induction rem with
  | zero => intro arr i j; simp [dedupInner]
  | succ rem ih =>
    intro arr i j
    simp only [dedupInner]
    split
    · exact le_trans (ih _ _ _) (by rw [length_swapRemove]; omega)
    · exact ih _ _ _

theorem dedupInner_subset (tSq : ℚ) :
    ∀ (rem : Nat) (arr : List Vec3) (i j : Nat) {q : Vec3},
      q ∈ dedupInner tSq arr i j rem → q ∈ arr := by
  intro rem
  induction rem with
  | zero => intro arr i j q h; simpa [dedupInner] using h
  | succ rem ih =>
    intro arr i j q h
    simp only [dedupInner] at h
    split at h
    · exact mem_of_mem_swapRemove (ih _ _ _ h)
    · exact ih _ _ _ h

theorem dedupOuter_length_le (tSq : ℚ) :
    ∀ (rem : Nat) (arr : List Vec3) (i : Nat),
      (dedupOuter tSq arr i rem).length ≤ arr.length := by
  intro rem
  induction rem with
  | zero => intro arr i; simp [dedupOuter]
  | succ rem ih =>
    intro arr i
    simp only [dedupOuter]
    split
    · exact le_trans (ih _ _) (dedupInner_length_le tSq _ _ _ _)
    · exact le_rfl

theorem dedupOuter_subset (tSq : ℚ) :
    ∀ (rem : Nat) (arr : List Vec3) (i : Nat) {q : Vec3},
      q ∈ dedupOuter tSq arr i rem → q ∈ arr := by
  intro rem
  induction rem with
  | zero => intro arr i q h; simpa [dedupOuter] using h
  | succ rem ih =>
    intro arr i q h
    simp only [dedupOuter] at h
    split at h
    · exact dedupInner_subset tSq _ _ _ _ (ih _ _ h)
    · exact h

theorem phase2Outer_length_le (t tSq : ℚ) :
    ∀ (rem : Nat) (arr : List Vec3) (i : Nat),
      (phase2Outer t tSq arr i rem).length ≤ arr.length := by
  intro rem
  induction rem with
  | zero => intro arr i; simp [phase2Outer]
  | succ rem ih =>
    intro arr i
    simp only [phase2Outer]
    split
    · split
      · exact ih _ _
      · exact le_trans (ih _ _) (by rw [length_swapRemove]; omega)
    · exact le_rfl

theorem phase2Outer_subset (t tSq : ℚ) :
    ∀ (rem : Nat) (arr : List Vec3) (i : Nat) {q : Vec3},
      q ∈ phase2Outer t tSq arr i rem → q ∈ arr := by
  intro rem
  induction rem with
  | zero => intro arr i q h; simpa [phase2Outer] using h
  | succ rem ih =>
    intro arr i q h
    simp only [phase2Outer] at h
    split at h
    · split at h
      · exact ih _ _ h
      · exact mem_of_mem_swapRemove (ih _ _ h)
    · exact h

/-- The reducer never grows the logical point count. -/
theorem convexSet_length_le (arr : List Vec3) (t : ℚ) :
    (convexSet arr t).length ≤ arr.length := by
  unfold convexSet
  exact le_trans (phase2Outer_length_le _ _ _ _ _) (dedupOuter_length_le _ _ _ _)

/-- Every survivor of the reducer is one of the input points. -/
theorem convexSet_subset (arr : List Vec3) (t : ℚ) {q : Vec3}
    (h : q ∈ convexSet arr t) : q ∈ arr := by
  unfold convexSet at h
  exact dedupOuter_subset _ _ _ _ (phase2Outer_subset _ _ _ _ _ h)

/-! ### Phase-1 lemmas for the duplicate-removal claim -/

theorem lensq_sub_comm (a b : Vec3) :
    Vec3.lensq (Vec3.sub a b) = Vec3.lensq (Vec3.sub b a) := by
  simp only [Vec3.lensq, Vec3.dot, Vec3.sub]
  ring

theorem getD_swapRemove (arr : List Vec3) (pb k : Nat) (hk : k < arr.length - 1) :
    (swapRemove arr pb).getD k ⟨0, 0, 0⟩ =
      if k = pb then arr.getD (arr.length - 1) ⟨0, 0, 0⟩ else arr.getD k ⟨0, 0, 0⟩ := by
  have hlen : (swapRemove arr pb).length = arr.length - 1 := length_swapRemove arr pb
  have hk1 : k < ((arr.set pb (arr.getD (arr.length - 1) ⟨0, 0, 0⟩)).dropLast).length := by
    simpa using hk
  rw [swapRemove, List.getD_eq_getElem _ _ hk1, List.getElem_dropLast,
    List.getElem_set]
  split
  · next heq => simp [heq]
  · next hne =>
    have hk2 : k < arr.length := by omega
    rw [if_neg (fun h => hne h.symm), List.getD_eq_getElem _ _ hk2]

/-- If all points at or after slot `j` are farther than the threshold from
point `i`, the inner loop changes nothing. -/
theorem dedupInner_no_removal (tSq : ℚ) :
    ∀ (rem : Nat) (arr : List Vec3) (i j : Nat), rem = arr.length - j →
      (∀ k, j ≤ k → k < arr.length →
        tSq < Vec3.lensq (Vec3.sub (arr.getD k ⟨0, 0, 0⟩) (arr.getD i ⟨0, 0, 0⟩))) →
      dedupInner tSq arr i j rem = arr := by
  intro rem
  induction rem with
  | zero => intro arr i j hrem hfar; simp [dedupInner]
  | succ rem ih =>
    intro arr i j hrem hfar
    have hj : j < arr.length := by omega
    simp only [dedupInner]
    rw [if_neg (not_le.mpr (hfar j le_rfl hj))]
    exact ih arr i (j + 1) (by omega) (fun k hk1 hk2 => hfar k (by omega) hk2)

/-- If all pairs at slots `i` and beyond are farther than the threshold,
the outer loop changes nothing. -/
theorem dedupOuter_no_removal (tSq : ℚ) :
    ∀ (rem : Nat) (arr : List Vec3) (i : Nat),
      (∀ j, j < arr.length → ∀ k, i ≤ k → k < j →
        tSq < Vec3.lensq (Vec3.sub (arr.getD j ⟨0, 0, 0⟩) (arr.getD k ⟨0, 0, 0⟩))) →
      dedupOuter tSq arr i rem = arr := by
  intro rem
  induction rem with
  | zero => intro arr i hfar; simp [dedupOuter]
  | succ rem ih =>
    intro arr i hfar
    simp only [dedupOuter]
    split
    · rw [dedupInner_no_removal tSq _ arr i (i + 1) rfl
        (fun k hk1 hk2 => hfar k hk2 i le_rfl (by omega))]
      exact ih arr (i + 1) (fun j hj k hk1 hk2 => hfar j hj k (by omega) hk2)
    · rfl

/-- Running the inner loop for pivot `pa` from any slot `pa < j ≤ pb`:
it walks to `pb`, removes it by swap-with-last, and changes nothing else. -/
theorem dedupInner_hits_pair (tSq : ℚ) (arr : List Vec3) (pa pb : Nat)
    (hab : pa < pb) (hb : pb < arr.length)
    (hclose : Vec3.lensq (Vec3.sub (arr.getD pb ⟨0, 0, 0⟩) (arr.getD pa ⟨0, 0, 0⟩)) ≤ tSq)
    (hfar : ∀ k, k < arr.length → pa < k → k ≠ pb →
      tSq < Vec3.lensq (Vec3.sub (arr.getD k ⟨0, 0, 0⟩) (arr.getD pa ⟨0, 0, 0⟩))) :
    ∀ (rem j : Nat), pa < j → j ≤ pb → rem = arr.length - j →
      dedupInner tSq arr pa j rem = swapRemove arr pb := by
  intro rem
  induction rem with
  | zero => intro j h1 h2 hrem; omega
  | succ rem ih =>
    intro j h1 h2 hrem
    simp only [dedupInner]
    by_cases hjb : j = pb
    · subst hjb
      rw [if_pos hclose]
      apply dedupInner_no_removal
      · rw [length_swapRemove]; omega
      · intro k hk1 hk2
        rw [length_swapRemove] at hk2
        have hpa : pa < arr.length - 1 := by omega
        rw [getD_swapRemove arr j k hk2, getD_swapRemove arr j pa (by omega)]
        rw [if_neg (by omega : ¬ pa = j)]
        split
        · exact hfar (arr.length - 1) (by omega) (by omega) (by omega)
        · next hne => exact hfar k (by omega) (by omega) hne
    · have hjlt : j < pb := by omega
      rw [if_neg (not_le.mpr (hfar j (by omega) h1 hjb))]
      exact ih (j + 1) (by omega) (by omega) (by omega)

/-- The full outer loop on a buffer whose only close pair is `(pa, pb)`
(`pa < pb`): iterations before `pa` change nothing, iteration `pa` removes
slot `pb` by swap-with-last, and all later iterations change nothing. -/
theorem dedupOuter_main (tSq : ℚ) (arr : List Vec3) (pa pb : Nat)
    (hab : pa < pb) (hb : pb < arr.length)
    (hclose : Vec3.lensq (Vec3.sub (arr.getD pb ⟨0, 0, 0⟩) (arr.getD pa ⟨0, 0, 0⟩)) ≤ tSq)
    (hfar : ∀ j, j < arr.length → ∀ i, i < j → ¬(i = pa ∧ j = pb) →
      tSq < Vec3.lensq (Vec3.sub (arr.getD j ⟨0, 0, 0⟩) (arr.getD i ⟨0, 0, 0⟩))) :
    ∀ (rem i : Nat), i ≤ pa → rem = arr.length - i →
      dedupOuter tSq arr i rem = swapRemove arr pb := by
  intro rem
  induction rem with
  | zero => intro i h1 h2; omega
  | succ rem ih =>
    intro i h1 hrem
    simp only [dedupOuter]
    rw [if_pos (by omega : i < arr.length)]
    by_cases hipa : i = pa
    · subst hipa
      rw [dedupInner_hits_pair tSq arr i pb hab hb hclose
        (fun k hk1 hk2 hk3 => hfar k hk1 i hk2 (fun h => hk3 h.2)) _ (i + 1)
        (by omega) (by omega) rfl]
      apply dedupOuter_no_removal
      intro j hj k hk1 hk2
      rw [length_swapRemove] at hj
      rw [getD_swapRemove arr pb j (by omega), getD_swapRemove arr pb k (by omega)]
      by_cases hjb : j = pb
      · rw [if_pos hjb]
        have hkb : ¬ k = pb := by omega
        rw [if_neg hkb]
        exact hfar (arr.length - 1) (by omega) k (by omega) (by omega)
      · rw [if_neg hjb]
        by_cases hkb : k = pb
        · rw [if_pos hkb]
          rw [lensq_sub_comm]
          exact hfar (arr.length - 1) (by omega) j (by omega) (by omega)
        · rw [if_neg hkb]
          exact hfar j (by omega) k hk2 (by omega)
    · rw [dedupInner_no_removal tSq _ arr i (i + 1) rfl
        (fun k hk1 hk2 => hfar k hk2 i (by omega) (fun h => hipa h.1))]
      exact ih (i + 1) (by omega) (by omega)

/-! ## Claims -/

/-- Claim C1 (code_bug evaluation).  The spec's MES containment property —
every input point within distance `radius` of the returned center — fails
on the code: on the buffer `c1Points` the constructor returns the sphere
with center `(1/2, 3, 1/2)` and squared radius `1/2`, while the first
input point `(-3,-4,2)` sits at squared distance `127/2`, i.e. at more
than 11 times the radius.  The engine returns `.ok`, so this run never
touches an out-of-range node: the evaluation exercises no aborted or
undefined behaviour. -/
theorem c1_mes_misses_input_point :
    sphereFromBuffer c1Points = .ok ⟨⟨1/2, 3, 1/2⟩, 1/2⟩ ∧
    Vec3.lensq (Vec3.sub ⟨-3, -4, 2⟩ ⟨1/2, 3, 1/2⟩) = 127 / 2 ∧
    (1/2 : ℚ) < Vec3.lensq (Vec3.sub ⟨-3, -4, 2⟩ ⟨1/2, 3, 1/2⟩) := by
  refine ⟨?_, ?_, ?_⟩
  · with_unfolding_all decide
  · with_unfolding_all decide
  · with_unfolding_all decide

/-- Claim C2 (code_bug evaluation).  The four-point constructor is claimed to
test whether each triple's circumsphere contains the *excluded* fourth
point.  The code instead tests `_p3` — a member of the first triple — so
with `p0 = (10,10,10)` far outside and `p3 = (2,1,0)` strictly inside the
sphere of `(p1,p2,p3)`, the first branch never fires and the constructor
returns the first triple's sphere (center `(2,0,0)`, squared radius `4`),
leaving the excluded point at squared distance `264`. -/
theorem c2_sphere4_tests_wrong_point :
    sphere4 ⟨10, 10, 10⟩ ⟨0, 0, 0⟩ ⟨4, 0, 0⟩ ⟨2, 1, 0⟩ = ⟨⟨2, 0, 0⟩, 4⟩ ∧
    Vec3.lensq (Vec3.sub ⟨10, 10, 10⟩ ⟨2, 0, 0⟩) = 264 ∧
    (4 : ℚ) < Vec3.lensq (Vec3.sub ⟨10, 10, 10⟩ ⟨2, 0, 0⟩) := by
  refine ⟨?_, ?_, ?_⟩
  · with_unfolding_all decide
  · with_unfolding_all decide
  · with_unfolding_all decide

/-- Claim C3 (counterexample).  The claim that `Sphere(const Vec3*, uint32)`
destructively reorders the caller's buffer — that some buffer of length
at least 2 differs after the call — is false: the parameter is
`const Vec3*` and the constructor copies every point into a freshly
allocated node array, so the buffer component of the call is unchanged for
every input. -/
theorem c3_no_buffer_reorder_exists :
    ¬ ∃ pts : List Vec3, 2 ≤ pts.length ∧ (sphereCtorRun pts).2 ≠ pts := by
  rintro ⟨pts, -, hne⟩
  exact hne rfl

/-- Claim C3 (amended).  The MES engine copies the caller's points into a
fresh linked node array (`list[i].p = _points[i]`) and reorders only that
internal list; the caller-supplied buffer is left unchanged for every
input. -/
theorem c3_buffer_unchanged (pts : List Vec3) : (sphereCtorRun pts).2 = pts := rfl

set_option maxRecDepth 4000 in
/-- Claim C4 (code_bug evaluation).  Box containment fails on the code: on
the giant tetrahedron `c4Points` every candidate frame's squared volume
(`10^186`) exceeds the sentinel's (`10^180`), so the brute-force search
never assigns a fit and the constructor returns with `sides` still at the
`Vec3(1e30f)` sentinel (and `center`/`orientation` uninitialized) — yet
two input points lie at squared distance `10^62 > 3·10^60`, which no box
with those sides can contain in any frame.  (In float arithmetic the same
happens from spreads of about `1e13` on, where `prod(sides)` overflows to
infinity and `inf < inf` is false.) -/
theorem c4_obox_keeps_sentinel_sides :
    oboxSidesSq c4Points =
      (1000000000000000000000000000000000000000000000000000000000000,
       1000000000000000000000000000000000000000000000000000000000000,
       1000000000000000000000000000000000000000000000000000000000000) ∧
    Vec3.lensq (Vec3.sub ⟨10000000000000000000000000000000, 0, 0⟩ ⟨0, 0, 0⟩) =
      100000000000000000000000000000000000000000000000000000000000000 ∧
    3 * (1000000000000000000000000000000000000000000000000000000000000 : ℚ) <
      Vec3.lensq (Vec3.sub ⟨10000000000000000000000000000000, 0, 0⟩ ⟨0, 0, 0⟩) := by
  have h : oboxBestSidesSq c4Points = none := by with_unfolding_all decide
  have hlen : c4Points.length = 4 := rfl
  refine ⟨?_, by norm_num [Vec3.lensq, Vec3.dot, Vec3.sub],
    by norm_num [Vec3.lensq, Vec3.dot, Vec3.sub]⟩
  unfold oboxSidesSq
  rw [hlen, h]
  norm_num

/-- The derived fast frustum of `c5Frustum` and the centroid of its 8
vertices. -/
def c5Fast : FastFrustum := fastFrustum c5Frustum

/-- The `idx`-th derived vertex of `c5Fast`. -/
def c5Vertex (idx : Nat) : Vec3 := c5Fast.vertices.getD idx ⟨0, 0, 0⟩

/-- Claim C5 (confirmed).  For the spec's concrete frustum, each of the 8
derived vertices lies exactly on its near/far plane and its two side
planes, and every stored plane has strictly positive signed distance to
the centroid of the 8 vertices (inward-facing normals; for the far plane
of the near/far DOP the inward direction is `-n`). -/
theorem c5_fastfrustum_consistent :
    (∀ idx ∈ [0, 1, 2, 3], Vec3.dot (c5Vertex idx) c5Fast.nf.n + c5Fast.nf.d0 = 0) ∧
    (∀ idx ∈ [4, 5, 6, 7], Vec3.dot (c5Vertex idx) c5Fast.nf.n + c5Fast.nf.d1 = 0) ∧
    (∀ idx ∈ [0, 1, 4, 5], planeVal c5Fast.l (c5Vertex idx) = 0) ∧
    (∀ idx ∈ [2, 3, 6, 7], planeVal c5Fast.r (c5Vertex idx) = 0) ∧
    (∀ idx ∈ [0, 2, 4, 6], planeVal c5Fast.b (c5Vertex idx) = 0) ∧
    (∀ idx ∈ [1, 3, 5, 7], planeVal c5Fast.t (c5Vertex idx) = 0) ∧
    0 < Vec3.dot (centroid c5Fast.vertices) c5Fast.nf.n + c5Fast.nf.d0 ∧
    0 < -(Vec3.dot (centroid c5Fast.vertices) c5Fast.nf.n + c5Fast.nf.d1) ∧
    0 < planeVal c5Fast.l (centroid c5Fast.vertices) ∧
    0 < planeVal c5Fast.r (centroid c5Fast.vertices) ∧
    0 < planeVal c5Fast.b (centroid c5Fast.vertices) ∧
    0 < planeVal c5Fast.t (centroid c5Fast.vertices) := by
  with_unfolding_all decide

/-- Claim C6 (counterexample).  Reducer idempotence fails: on `c6Points`
with threshold `0` the first run returns 5 survivors, but running the
reducer again on its own output returns only 4 — the separating-plane
search is order-dependent and the first run reorders the survivors by its
swap-with-last removals. -/
theorem c6_second_run_shrinks :
    (convexSet (convexSet c6Points 0) 0).length ≠ (convexSet c6Points 0).length := by
  with_unfolding_all decide

/-- Claim C6 (amended).  What does hold of a second run on the reducer's own
output with the same threshold: its count never exceeds the first run's
count (removals only shrink the buffer). -/
theorem c6_second_run_le (pts : List Vec3) (t : ℚ) :
    (convexSet (convexSet pts t) t).length ≤ (convexSet pts t).length :=
  convexSet_length_le (convexSet pts t) t

/-- Claim C10 (confirmed).  For every buffer and threshold the reducer
returns a count at most the input length, every surviving entry is one of
the original input points (removals are swap-with-last only, nothing is
fabricated), and the empty buffer yields count `0` without tripping any
assertion. -/
theorem c10_reducer_invariants (pts : List Vec3) (t : ℚ) :
    (convexSet pts t).length ≤ pts.length ∧
    (∀ q ∈ convexSet pts t, q ∈ pts) ∧
    convexSet ([] : List Vec3) t = [] :=
  ⟨convexSet_length_le pts t, fun _ h => convexSet_subset pts t h, rfl⟩

/-- Fuel sufficiency of the scan loop: if no rebuild the scan can make
runs out of fuel, neither does the whole scan (it ends in a value or in an
aborted execution, never in fuel exhaustion). -/
theorem scanGoE_ne_fuelOut
    (rebuild : List Node → Int → Nat → Nat → EngineResult (Sphere × List Node))
    (support : Nat)
    (hreb : ∀ nodes first n, rebuild nodes first n (support + 1) ≠ .fuelOut) :
    ∀ (count : Nat) (nodes : List Node) (first last it : Int) (i : Nat) (mbs : Sphere),
      scanGoE rebuild nodes first last it i support mbs count ≠ .fuelOut := by
  intro count
  induction count with
  | zero => intro nodes first last it i mbs; simp [scanGoE]
  | succ count ih =>
    intro nodes first last it i mbs
    simp only [scanGoE]
    split
    · simp
    · split
      · split
        · simp
        · split
          · simp
          · split
            · exact ih _ _ _ _ _ _
            · simp
            · next heq => exact absurd heq (hreb _ _ _)
      · exact ih _ _ _ _ _ _

/-- Fuel sufficiency of the MES engine: from any boundary-set size between
1 and 4, fuel `5 - support` suffices — every recursive rebuild raises the
support size by exactly one, the scan loop only runs for support sizes at
most 3 (case 4 returns from the `switch` directly), so the nesting depth is
bounded by 4 and the fuel is never exhausted. -/
theorem mbsFuelE_ne_fuelOut :
    ∀ (fuel support : Nat), 1 ≤ support → support ≤ 4 → 5 - support ≤ fuel →
      ∀ (nodes : List Node) (first : Int) (n : Nat),
        mbsFuelE fuel nodes first n support ≠ .fuelOut := by
  intro fuel
  induction fuel with
  | zero => intro support h1 h4 hf; omega
  | succ fuel ih =>
    intro support h1 h4 hf nodes first n
    simp only [mbsFuelE]
    rw [if_neg (by omega)]
    by_cases h4e : support = 4
    · rw [if_pos h4e]
      split <;> simp
    · rw [if_neg h4e]
      split
      · simp
      · split
        · simp
        · apply scanGoE_ne_fuelOut
          intro nodes2 first2 n2
          exact ih (support + 1) (by omega) (by omega) (by omega) nodes2 first2 n2

/-- The aborting path of the engine is reachable from the public entry: on
this four-point buffer the stale-`last` splice corrupts the linked chain,
and the rebuild at the last violation starts its scan at `it = -1` with an
iteration remaining — the source reads `_points[0xffffffff]` and trips
`eiAssert(it != 0xffffffff, ...)` (line 117); the run terminates by
aborting instead of returning a sphere. -/
theorem sphereFromBuffer_abort_reachable :
    sphereFromBuffer [⟨-3, -4, 2⟩, ⟨0, 3, 0⟩, ⟨1, 3, 1⟩, ⟨100, 100, 100⟩] = .abort := by
  with_unfolding_all decide

/-- Claim C8 (confirmed).  In the MES recursion every rebuild is invoked
with `_boundarySet + 1` (strictly increasing support) and the `switch`'s
case 4 returns directly without scanning or recursing, so the nesting
depth never exceeds 4 and the computation terminates for every buffer of
length at least 1: the engine, fueled with exactly the depth bound 4,
never exhausts its fuel — every run ends after at most `n` scan steps per
level, in a sphere or in the source's fail-fast scan assertion (the latter
is reachable, see `sphereFromBuffer_abort_reachable`; an aborted run is
still a terminating one). -/
theorem c8_mes_terminates (pts : List Vec3) (h : 1 ≤ pts.length) :
    sphereFromBuffer pts ≠ .fuelOut := by
  unfold sphereFromBuffer
  rw [if_neg (by omega)]
  have hs := mbsFuelE_ne_fuelOut 4 1 (by norm_num) (by norm_num) (by norm_num)
    (initNodes pts) 0 pts.length
  split
  · simp
  · simp
  · next heq => exact absurd heq hs

/-- Claim C8 witness: the termination theorem applied to a concrete
three-point buffer. -/
theorem c8_mes_terminates_witness :
    sphereFromBuffer [⟨1, 2, 3⟩, ⟨4, 5, 6⟩, ⟨7, 8, 10⟩] ≠ .fuelOut :=
  c8_mes_terminates [⟨1, 2, 3⟩, ⟨4, 5, 6⟩, ⟨7, 8, 10⟩] (by simp)

/-- Claim C7 (confirmed).  If a buffer contains exactly one pair of points
within the threshold — slots `pa < pb` with squared distance at most
`t·t`, every other pair strictly farther — then phase 1 of `convexSet`
removes exactly the point at slot `pb` (overwriting it with the current
last element and shrinking the count): the result is exactly
`swapRemove arr pb`, whose length is `n - 1`, and whichever of the two
survives, the count drops by exactly one. -/
theorem c7_phase1_removes_exactly_one (arr : List Vec3) (t : ℚ) (pa pb : Nat)
    (hab : pa < pb) (hb : pb < arr.length)
    (hclose : Vec3.lensq (Vec3.sub (arr.getD pb ⟨0, 0, 0⟩) (arr.getD pa ⟨0, 0, 0⟩)) ≤ t * t)
    (hfar : ∀ j, j < arr.length → ∀ i, i < j → ¬(i = pa ∧ j = pb) →
      t * t < Vec3.lensq (Vec3.sub (arr.getD j ⟨0, 0, 0⟩) (arr.getD i ⟨0, 0, 0⟩))) :
    dedup (t * t) arr = swapRemove arr pb ∧
    (dedup (t * t) arr).length = arr.length - 1 := by
  have h := dedupOuter_main (t * t) arr pa pb hab hb hclose hfar arr.length 0
    (by omega) (by omega)
  refine ⟨h, ?_⟩
  rw [show dedup (t * t) arr = dedupOuter (t * t) arr 0 arr.length from rfl, h,
    length_swapRemove]

/-- Claim C7 witness: the buffer `[(0,0,0), (5,0,0), (1/10,0,0)]` with
threshold `1/2` has exactly one close pair (slots 0 and 2); phase 1
removes slot 2, leaving 2 of the 3 points. -/
theorem c7_phase1_removes_exactly_one_witness :
    dedup ((1/2 : ℚ) * (1/2)) [⟨0, 0, 0⟩, ⟨5, 0, 0⟩, ⟨1/10, 0, 0⟩] =
      swapRemove [⟨0, 0, 0⟩, ⟨5, 0, 0⟩, ⟨1/10, 0, 0⟩] 2 ∧
    (dedup ((1/2 : ℚ) * (1/2)) [⟨0, 0, 0⟩, ⟨5, 0, 0⟩, ⟨1/10, 0, 0⟩]).length = 3 - 1 :=
  c7_phase1_removes_exactly_one [⟨0, 0, 0⟩, ⟨5, 0, 0⟩, ⟨1/10, 0, 0⟩] (1/2) 0 2
    (by norm_num) (by simp) (by with_unfolding_all decide)
    (by with_unfolding_all decide)

/-- Claim C9 (confirmed).  A zero-length point buffer violates the
constructor's precondition: the `eiAssert(_numPoints > 0, ...)` fires, the
call aborts, and no sphere value is produced. -/
theorem c9_zero_points_is_assertion_failure :
    sphereFromBuffer ([] : List Vec3) = .abort := rfl

end EpsilonIntersect
